import Mathlib

/-!
Shallow embedding of the execution orchestrator of `studio-node`
(`src/BaseExecutor.ts`) and proofs about its tool-call loop, template
rendering, variable validation and error handling.

Modelling conventions:
* JavaScript dynamic values (tool arguments, tool results, message content)
  are the inductive `Value`; property access and truthiness follow JS rules.
* The provider adapter (`invoke`) is abstract in the source; an execution is
  run against a `script`: a list of scripted adapter responses consumed one
  per invocation.  The tool choice passed to each invocation is recorded in
  the state (`choices`) so that theorems can speak about it.
* A caller-supplied tool handler is an async closure whose behaviour may
  differ from call to call; it is modelled as a list of outcomes consumed
  per call of that tool (with a default once exhausted).
* `async`/`await` sequencing is direct state passing; a thrown exception is
  `Except.error` carrying the error message and the state at the throw.
* Trace emission (`sendTurnTrace`/`sendToolTrace`) is fire-and-forget I/O
  that never affects the run; it is not modelled.
-/

namespace Studio

/-- A JavaScript-like dynamic value, as manipulated by the executor
(tool-call arguments, tool results, message content). -/
inductive Value where
  | vNull : Value
  | vBool (b : Bool) : Value
  | vNum (n : Int) : Value
  | vStr (s : String) : Value
  | vArr (elems : List Value) : Value
  | vObj (fields : List (String × Value)) : Value
deriving Repr

/-- Property access `v[k]`: on an object, the first binding of the key;
`undefined` (modelled as `none`) otherwise. -/
def Value.lookup : Value → String → Option Value
  | .vObj fields, k => List.lookup k fields
  | _, _ => none

/-- JavaScript truthiness. -/
def Value.truthy : Value → Bool
  | .vNull => false
  | .vBool b => b
  | .vNum n => n != 0
  | .vStr s => !s.isEmpty
  | .vArr _ => true
  | .vObj _ => true

/-- Escape of one character inside a JSON string literal
(the cases relevant to the values the executor builds). -/
def jsonEscapeChar (c : Char) : String :=
  if c = '"' then "\\\""
  else if c = '\\' then "\\\\"
  else if c = '\n' then "\\n"
  else String.singleton c

/-- Escape a string for inclusion in a JSON string literal. -/
def jsonEscape (s : String) : String :=
  String.join (s.toList.map jsonEscapeChar)

mutual

/-- Model of `JSON.stringify` on `Value` (tool results are serialised with it
before being pushed onto the message stack as tool messages). -/
def Value.stringify : Value → String
  | .vNull => "null"
  | .vBool true => "true"
  | .vBool false => "false"
  | .vNum n => toString n
  | .vStr s => "\"" ++ jsonEscape s ++ "\""
  | .vArr elems => "[" ++ String.intercalate "," (Value.stringifyList elems) ++ "]"
  | .vObj fields => "\x7b" ++ String.intercalate "," (Value.stringifyFields fields) ++ "\x7d"

def Value.stringifyList : List Value → List String
  | [] => []
  | v :: vs => Value.stringify v :: Value.stringifyList vs

def Value.stringifyFields : List (String × Value) → List String
  | [] => []
  | (k, v) :: fs =>
      ("\"" ++ jsonEscape k ++ "\":" ++ Value.stringify v) :: Value.stringifyFields fs

end

mutual

/-- Model of JavaScript `String(v)` coercion, used when a bound variable value
is substituted into a template by `String.prototype.replace`. -/
def Value.jsToString : Value → String
  | .vNull => "null"
  | .vBool true => "true"
  | .vBool false => "false"
  | .vNum n => toString n
  | .vStr s => s
  | .vArr elems => String.intercalate "," (Value.jsToStringArr elems)
  | .vObj _ => "[object Object]"

/-- Array elements under `Array.prototype.toString`: `null` becomes empty. -/
def Value.jsToStringArr : List Value → List String
  | [] => []
  | .vNull :: vs => "" :: Value.jsToStringArr vs
  | v :: vs => Value.jsToString v :: Value.jsToStringArr vs

end

/-- Whether `sub` occurs as a contiguous sublist of `l`. -/
def listContainsSub (sub : List Char) : List Char → Bool
  | [] => sub.isEmpty
  | c :: rest => sub.isPrefixOf (c :: rest) || listContainsSub sub rest

/-- Whether string `sub` occurs as a substring of `s` (used to state the
spec's "error contains ..." properties). -/
def strContainsSub (s sub : String) : Bool :=
  listContainsSub sub.toList s.toList

/-! ### Template renderer

`BaseExecutor.renderChunks` first resolves block references
(`resolveBlockReferences`, regex `\x7bcomponent\.([^\x7d]+)\x7d`) and then
substitutes vars (`populateTemplate`, regex `\x7b([^\x7d]+)\x7d`).
Both regexes are global non-overlapping left-to-right scans; they are
modelled by a character scanner.  The scanners carry a fuel argument,
initialised to the length of the scanned text, purely so that the
definitions are structurally recursive (each scanning step consumes at
least one character, so the fuel is never exhausted). -/

/-- Attempt to match the token `pre ++ NAME ++ "\x7d"` (with `NAME` a
non-empty run of characters other than `\x7d`) at the head of `cs`;
on success return the name and the remaining characters. -/
def tryMatchToken (pre : List Char) (cs : List Char) : Option (String × List Char) :=
  if cs.take pre.length = pre then
    let body := cs.drop pre.length
    let name := body.takeWhile (fun c => c ≠ '\x7d')
    match body.dropWhile (fun c => c ≠ '\x7d') with
    | '\x7d' :: tail => if name.isEmpty then none else some (String.mk name, tail)
    | _ => none
  else none

/-- The literal text of the opening of a block reference. -/
def componentLead : List Char := "\x7bcomponent.".toList

/-- One segment of a scanned template: literal text, or a matched
block reference `\x7bcomponent.NAME\x7d`. -/
inductive Seg where
  | lit (s : String) : Seg
  | ref (name : String) : Seg
deriving Repr, DecidableEq

/-- Scanner for block references (fuel-indexed; see section comment). -/
def scanComponentRefsAux (fuel : Nat) (cs : List Char) : List Seg :=
  match fuel, cs with
  | 0, _ => []
  | _, [] => []
  | fuel + 1, c :: rest =>
    match tryMatchToken componentLead (c :: rest) with
    | some (name, after) => .ref name :: scanComponentRefsAux fuel after
    | none => .lit (String.singleton c) :: scanComponentRefsAux fuel rest

/-- Split a string into literal text and `\x7bcomponent.NAME\x7d` references,
exactly as the global regex of `resolveBlockReferences` walks it. -/
def scanComponentRefs (cs : List Char) : List Seg :=
  scanComponentRefsAux cs.length cs

/-- The unresolved literal form of a block reference, as left in place on a
circular reference or an unknown block name. -/
def componentLiteral (name : String) : String :=
  "\x7bcomponent." ++ name ++ "\x7d"

/-- Render the segments of one scanned content string, looking the referenced
blocks up and recursing into their content through `recur` (which is
`resolveGas` at one smaller gas, i.e. the source's `resolveBlockReferences`
at `depth + 1`). -/
def segRender (blocks : List (String × String)) (recur : String → List String → String) :
    List Seg → List String → String
  | [], _ => ""
  | .lit s :: rest, visited => s ++ segRender blocks recur rest visited
  | .ref name :: rest, visited =>
    (if visited.contains name then
      componentLiteral name
    else
      match List.lookup name blocks with
      | none => componentLiteral name
      | some blockContent => recur blockContent (name :: visited))
    ++ segRender blocks recur rest visited

/-- Block-reference resolution, indexed by remaining gas
`gas = 51 - depth`: the source guard `depth > MAX_DEPTH` (`MAX_DEPTH = 50`),
which returns the content as-is, is exactly the `gas = 0` case. -/
def resolveGas (blocks : List (String × String)) : Nat → String → List String → String
  | 0 => fun content _ => content
  | gas + 1 => fun content visited =>
    segRender blocks (resolveGas blocks gas) (scanComponentRefs content.toList) visited

/-- `BaseExecutor.resolveBlockReferences(content, visitedBlocks, depth)`:
recursively resolve `\x7bcomponent.NAME\x7d` references with cycle protection
(the visited set) and a recursion-depth ceiling of 50.  A block is a
`(name, content)` pair, as in `manifest.blocks` (`find` by name is the
association-list lookup). -/
def resolveBlockReferences (blocks : List (String × String)) (content : String)
    (visitedBlocks : List String) (depth : Nat) : String :=
  resolveGas blocks (51 - depth) content visitedBlocks

/-- Scanner for `\x7bNAME\x7d` variable tokens: replace a bound name by the
string coercion of its value, leave an unbound token as literal text
(fuel-indexed; see section comment). -/
def populateAux (vars : List (String × Value)) (fuel : Nat) (cs : List Char) : String :=
  match fuel, cs with
  | 0, _ => ""
  | _, [] => ""
  | fuel + 1, c :: rest =>
    match tryMatchToken ['\x7b'] (c :: rest) with
    | some (name, after) =>
      (match List.lookup name vars with
       | some v => v.jsToString
       | none => "\x7b" ++ name ++ "\x7d") ++ populateAux vars fuel after
    | none => String.singleton c ++ populateAux vars fuel rest

/-- `BaseExecutor.populateTemplate(template, variables)` (the parameter is `vars` here, `variables` being reserved in Lean): substitute
`\x7bvariableName\x7d` tokens with the bound value, leaving unbound tokens as
literal text (and returning the empty string on a falsy template). -/
def populateTemplate (template : String) (vars : List (String × Value)) : String :=
  if template = "" then ""
  else populateAux vars template.toList.length template.toList

/-- A chunk of the manifest's system or user sequence (its text content). -/
structure Chunk where
  content : String
deriving Repr, DecidableEq

/-- `BaseExecutor.renderChunks(chunks, vars)`: resolve block references
in each chunk, then substitute vars, and join the chunks with blank
lines. -/
def renderChunks (blocks : List (String × String)) (chunks : List Chunk)
    (vars : List (String × Value)) : String :=
  if chunks.isEmpty then ""
  else
    String.intercalate "\n\n"
      (chunks.map fun chunk =>
        populateTemplate (resolveBlockReferences blocks chunk.content [] 0) vars)

/-! ### Executor data model -/

/-- A tool call produced by the model provider (canonical shape). -/
structure ToolCall where
  id : String
  name : String
  args : Value
deriving Repr

/-- A message on the executor's message stack.  Tool-result messages carry
the `JSON.stringify` of the tool result as their content. -/
structure Message where
  role : String
  content : Value
  tool_calls : Option (List ToolCall) := none
  tool_call_id : Option String := none
deriving Repr

/-- A tool execution result: call id, opaque payload, and the payload's
`forceNextTool` property if it is an object carrying one
(extracted as `toolResult?.forceNextTool` in `handleToolCalls`). -/
structure ToolResult where
  tool_call_id : String
  content : Value
  forceNextTool : Option Value
deriving Repr

/-- Per-turn token usage as reported by a provider adapter. -/
structure TurnUsage where
  input_tokens : Nat
  output_tokens : Nat
deriving Repr, DecidableEq

/-- One scripted adapter response: the normalized assistant message and the
turn's usage (`usage` may be absent, the code guards with `|| 0`). -/
structure InvokeResult where
  message : Message
  usage : Option TurnUsage := none
deriving Repr

/-- Accumulated usage/cost of an execution (`totalCostUSD` is exact rational
arithmetic in the model; the source uses JS numbers). -/
structure Usage where
  inputTokens : Nat
  outputTokens : Nat
  totalCostUSD : ℚ
deriving Repr, DecidableEq

/-- Cached per-model pricing (per-million-token rates). -/
structure ModelPricing where
  inputTokensPer1M : ℚ
  outputTokensPer1M : ℚ
deriving Repr, DecidableEq

/-- A variable declaration of the manifest (the `default` field plays no role
in validation and is omitted). -/
structure VariableDef where
  name : String
  type : String
  required : Bool
deriving Repr, DecidableEq

/-- A named scenario of the manifest. -/
structure Scenario where
  name : String
  description : String
  instructions : String
deriving Repr, DecidableEq

/-- The manifest fields the orchestrator reads.  Blocks are `(name, content)`
pairs.  The manifest's tool declarations and model configurations are passed
through to the provider adapter, which is abstracted by the invocation
script, so they are omitted here. -/
structure Manifest where
  system : List Chunk
  user : List Chunk
  blocks : List (String × String)
  vars : List VariableDef
  scenarios : List Scenario
deriving Repr

/-- The outcome of one call of a caller-supplied tool handler:
a resolved value or a thrown error (its `.message`). -/
inductive HandlerOutcome where
  | ok (v : Value) : HandlerOutcome
  | throw (msg : String) : HandlerOutcome
deriving Repr

/-- A caller-supplied tool handler.  The source handler is an async closure
whose behaviour may differ between calls; call number `n` of the handler
produces `outcomes[n]`, or `dflt` once the list is exhausted. -/
structure Handler where
  outcomes : List HandlerOutcome
  dflt : HandlerOutcome
deriving Repr

/-- The outcome of the `n`-th call of a handler. -/
def Handler.call (h : Handler) (n : Nat) : HandlerOutcome :=
  h.outcomes.getD n h.dflt

/-- The tool choice actually handed to the adapter, after
`normalizeToolChoice`: a pass-through string or an OpenAI-style
`\x7b type:'function', function:\x7b name \x7d \x7d` wrapper. -/
inductive NormalizedToolChoice where
  | plain (s : String) : NormalizedToolChoice
  | function (name : Value) : NormalizedToolChoice
deriving Repr

/-- `BaseExecutor.normalizeToolChoice`: `'auto' | 'required' | 'none'` pass
through; anything else is wrapped as a specific function name. -/
def normalizeToolChoice (toolChoice : Value) : NormalizedToolChoice :=
  match toolChoice with
  | .vStr "auto" => .plain "auto"
  | .vStr "required" => .plain "required"
  | .vStr "none" => .plain "none"
  | other => .function other

/-- The executor configuration: the constructor arguments of `BaseExecutor`
plus the scripted environment (adapter responses).  `cancelStart` models an
external `cancel()` that lands before the loop's first checkpoint. -/
structure Config where
  manifest : Manifest
  vars : List (String × Value) := []
  router : List (String × Handler) := []
  onToolCall : Option (ToolCall → Value → Bool) := none
  messages : List Message := []
  maxMessages : Nat := 50
  initialToolChoice : String := "required"
  modelPricing : Option ModelPricing := none
  script : List InvokeResult := []
  cancelStart : Bool := false

/-- The mutable executor state threaded through one execution, together with
the scripted environment: remaining adapter responses, the log of tool
choices passed to the adapter so far (one entry per adapter invocation), and
per-tool handler call counters (which model the successive calls of each
handler closure). -/
structure LoopState where
  messages : List Message
  cancelled : Bool
  toolErrorCount : List (String × Nat)
  callCount : List (String × Nat)
  script : List InvokeResult
  choices : List NormalizedToolChoice
deriving Repr

/-- Counter read with default 0 (`this.toolErrorCount[name] || 0`). -/
def countGet (counters : List (String × Nat)) (k : String) : Nat :=
  (List.lookup k counters).getD 0

/-- Counter write (`this.toolErrorCount[name] = n`). -/
def countSet (counters : List (String × Nat)) (k : String) (n : Nat) :
    List (String × Nat) :=
  match counters with
  | [] => [(k, n)]
  | (k', v) :: rest => if k' = k then (k, n) :: rest else (k', v) :: countSet rest k n

/-- Adapter invocation against the script: consume the next scripted
response, recording the tool choice; an exhausted script is an adapter
failure (a throw). -/
def invokeScript (toolChoice : NormalizedToolChoice) (st : LoopState) :
    Except String (InvokeResult × LoopState) :=
  match st.script with
  | [] => .error "[model] adapter script exhausted"
  | r :: rest =>
    .ok (r, { st with script := rest, choices := st.choices ++ [toolChoice] })

/-- `hasToolCalls` as every shipped provider adapter implements it:
`Boolean(message?.tool_calls && message.tool_calls.length > 0)`. -/
def hasToolCalls (message : Message) : Bool :=
  match message.tool_calls with
  | some calls => !calls.isEmpty
  | none => false

/-- `BaseExecutor.calculateCost`: cached pricing when available, otherwise
the hard-coded default of $3/MTok input and $15/MTok output. -/
def calculateCost (cfg : Config) (inputTokens outputTokens : Nat) : ℚ :=
  match cfg.modelPricing with
  | some p =>
    (inputTokens : ℚ) / 1000000 * p.inputTokensPer1M
      + (outputTokens : ℚ) / 1000000 * p.outputTokensPer1M
  | none =>
    (inputTokens : ℚ) / 1000000 * 3 + (outputTokens : ℚ) / 1000000 * 15

/-! ### Built-in tools and tool-call handling -/

/-- The terminating tool names of `runToolLoop`. -/
def terminatingTools : List String := ["finish_agent_run", "output"]

/-- The built-in scenario-discovery tool names checked in `execute`. -/
def builtInScenarioTools : List String :=
  ["fetch_available_scenarios", "fetch_scenario_specific_instructions"]

/-- The structured recoverable result returned for an unknown tool name. -/
def toolNotFound (name : String) : Value :=
  .vObj [("completed", .vBool false), ("error", .vBool true),
         ("message", .vStr ("Tool \x27" ++ name ++ "\x27 not found"))]

/-- The generic recoverable result returned on a router tool's first and
second consecutive failures. -/
def recoverableToolError : Value :=
  .vObj [("completed", .vBool false), ("error", .vBool true),
         ("message", .vStr "An error occurred while executing this tool. Please try a different approach.")]

/-- `BaseExecutor.handleFetchAvailableScenarios`. -/
def handleFetchAvailableScenarios (scenarios : List Scenario) : Value :=
  .vObj [("completed", .vBool true),
         ("scenarios", .vArr (scenarios.map fun s =>
            .vObj [("name", .vStr s.name), ("description", .vStr s.description)]))]

/-- Walk the requested scenario names, splitting them into found entries and
not-found names (in request order). -/
def collectScenarios (scenarios : List Scenario) :
    List Value → (List Value × List Value)
  | [] => ([], [])
  | n :: rest =>
    let (found, notFound) := collectScenarios scenarios rest
    match n with
    | .vStr s =>
      match scenarios.find? (fun sc => sc.name = s) with
      | some sc =>
        (.vObj [("name", .vStr sc.name), ("instructions", .vStr sc.instructions)] :: found,
         notFound)
      | none => (found, n :: notFound)
    | other => (found, other :: notFound)

/-- `BaseExecutor.handleFetchScenarioInstructions`: errors unless the
argument carries an array `scenarioNames`, errors when any requested name is
absent, and otherwise returns the instructions of the requested scenarios. -/
def handleFetchScenarioInstructions (scenarios : List Scenario) (args : Value) : Value :=
  match args.lookup "scenarioNames" with
  | some (.vArr names) =>
    let (found, notFound) := collectScenarios scenarios names
    if notFound.isEmpty then
      .vObj [("completed", .vBool true), ("scenarios", .vArr found)]
    else
      .vObj [("completed", .vBool false), ("error", .vBool true),
             ("message", .vStr ("Scenarios not found: "
               ++ String.intercalate ", " (notFound.map Value.jsToString)))]
  | _ =>
    .vObj [("completed", .vBool false), ("error", .vBool true),
           ("message", .vStr "scenarioNames must be an array")]

/-- Package a tool result, extracting the payload's `forceNextTool` property
(`const forceNextTool = toolResult?.forceNextTool`). -/
def mkToolResult (tc : ToolCall) (content : Value) : ToolResult :=
  { tool_call_id := tc.id, content := content,
    forceNextTool := content.lookup "forceNextTool" }

/-- One iteration of the `for` loop of `BaseExecutor.handleToolCalls`:
built-in tools first (`finish_agent_run` echoes its arguments when the
router supplies no override; scenario tools answer from the manifest), then
the caller-supplied router, with the per-tool error counter driving
recover-twice-then-rethrow, and a structured not-found result for unknown
names. -/
def handleOneToolCall (cfg : Config) (st : LoopState) (tc : ToolCall) :
    Except (String × LoopState) (ToolResult × LoopState) :=
  if tc.name = "finish_agent_run" then
    match List.lookup tc.name cfg.router with
    | some h =>
      let n := countGet st.callCount tc.name
      let st' := { st with callCount := countSet st.callCount tc.name (n + 1) }
      match h.call n with
      | .ok v => .ok (mkToolResult tc v, st')
      | .throw m =>
        let msg := if m = "" then "An error occurred while executing finish_agent_run" else m
        .ok (mkToolResult tc (.vObj [("completed", .vBool false), ("error", .vBool true),
              ("message", .vStr msg)]), st')
    | none => .ok (mkToolResult tc tc.args, st)
  else if tc.name = "fetch_available_scenarios" then
    .ok (mkToolResult tc (handleFetchAvailableScenarios cfg.manifest.scenarios), st)
  else if tc.name = "fetch_scenario_specific_instructions" then
    .ok (mkToolResult tc (handleFetchScenarioInstructions cfg.manifest.scenarios tc.args), st)
  else
    match List.lookup tc.name cfg.router with
    | none => .ok (mkToolResult tc (toolNotFound tc.name), st)
    | some h =>
      let n := countGet st.callCount tc.name
      let stc := { st with callCount := countSet st.callCount tc.name (n + 1) }
      match h.call n with
      | .ok v =>
        .ok (mkToolResult tc v,
             { stc with toolErrorCount := countSet stc.toolErrorCount tc.name 0 })
      | .throw m =>
        let k := countGet stc.toolErrorCount tc.name + 1
        let st' := { stc with toolErrorCount := countSet stc.toolErrorCount tc.name k }
        if 3 ≤ k then .error (m, st')
        else .ok (mkToolResult tc recoverableToolError, st')

/-- `BaseExecutor.handleToolCalls`: execute the batch sequentially, in order;
a rethrown tool error aborts the batch. -/
def handleToolCalls (cfg : Config) (st : LoopState) :
    List ToolCall → Except (String × LoopState) (List ToolResult × LoopState)
  | [] => .ok ([], st)
  | tc :: rest =>
    match handleOneToolCall cfg st tc with
    | .error e => .error e
    | .ok (r, st') =>
      match handleToolCalls cfg st' rest with
      | .error e => .error e
      | .ok (rs, st'') => .ok (r :: rs, st'')

/-! ### The tool loop -/

/-- The loop's cancelled return value `\x7b ok:false, status:'cancelled' \x7d`. -/
def cancelledValue : Value :=
  .vObj [("ok", .vBool false), ("status", .vStr "cancelled")]

/-- The infinite-loop guard's error message. -/
def maxMessagesError (maxMessages : Nat) : String :=
  "[BaseExecutor] Message stack exceeded " ++ toString maxMessages
    ++ " messages. Possible infinite loop detected. Agent must call a terminating tool (finish_agent_run or output) to complete."

/-- The error thrown when the loop exits without a terminating tool call. -/
def noTerminatingError : String :=
  "[BaseExecutor] Agent ended without calling terminating tool"

/-- A tool result pushed onto the message stack. -/
def toolResultMessage (r : ToolResult) : Message :=
  { role := "tool", content := .vStr r.content.stringify,
    tool_calls := none, tool_call_id := some r.tool_call_id }

/-- The `forceNextTool` scan of `runToolLoop`: the directive field of the
earliest result whose stored directive is truthy (`if (result.forceNextTool)
\x7b ... break \x7d`); the field itself was reset before the scan, so only the
current batch is consulted. -/
def firstForceDirective : List ToolResult → Option Value
  | [] => none
  | r :: rest =>
    match r.forceNextTool with
    | some v => if v.truthy then some v else firstForceDirective rest
    | none => firstForceDirective rest

/-- Rejection test for a terminating tool's result:
`content.completed === false || content.error`. -/
def isRejected (content : Value) : Bool :=
  (match content.lookup "completed" with
   | some (.vBool false) => true
   | _ => false)
  || (match content.lookup "error" with
      | some e => e.truthy
      | none => false)

/-- The `onToolCall` callback pass over a batch: callbacks run in order,
skipping terminating tools, and stop at the first abort signal. -/
def callbackAbort (cb : ToolCall → Value → Bool) :
    List (ToolCall × ToolResult) → Bool
  | [] => false
  | (c, r) :: rest =>
    if terminatingTools.contains c.name then callbackAbort cb rest
    else if cb c r.content then true
    else callbackAbort cb rest

/-- Run the per-tool-call callbacks of one batch; an abort signal sets the
cancellation flag. -/
def runCallbacks (cfg : Config) (calls : List ToolCall) (results : List ToolResult)
    (st : LoopState) : LoopState :=
  match cfg.onToolCall with
  | none => st
  | some cb =>
    if callbackAbort cb (calls.zip results) then { st with cancelled := true } else st

/-- The result of one iteration of the `while` body of `runToolLoop`. -/
inductive StepOut where
  | done (v : Value) (usage : Usage) (st : LoopState) : StepOut
  | cont (msg : Message) (usage : Usage) (st : LoopState) : StepOut

/-- The terminating-call check of `runToolLoop`: find the first terminating
tool call of the batch (`tool_calls.find`); if its result is present and
marked rejected the loop must continue (`none`), otherwise the loop returns
that call's arguments. -/
def terminatingStop (calls : List ToolCall) (results : List ToolResult) : Option Value :=
  match calls.find? (fun c => terminatingTools.contains c.name) with
  | some tcall =>
    match results.find? (fun r => r.tool_call_id == tcall.id) with
    | some r => if isRejected r.content then none else some tcall.args
    | none => some tcall.args
  | none => none

/-- One iteration of the `while` body of `runToolLoop`, in source order:
cancellation checkpoint, infinite-loop guard, tool execution, `forceNextTool`
scan, result pushes, callbacks (with the post-callback cancellation
checkpoint), the first-terminating-call check, and the next adapter
invocation.  `done` carries the loop's return value (a `break` on a set
cancellation flag reaches the after-loop cancelled return, folded in here). -/
def loopStep (cfg : Config) (msg : Message) (usage : Usage) (st : LoopState) :
    Except (String × LoopState) StepOut :=
  if st.cancelled then .ok (.done cancelledValue usage st)
  else if cfg.maxMessages ≤ st.messages.length then
    .error (maxMessagesError cfg.maxMessages, st)
  else
    let calls := msg.tool_calls.getD []
    match handleToolCalls cfg st calls with
    | .error e => .error e
    | .ok (toolResults, st1) =>
      let force := firstForceDirective toolResults
      let st2 := { st1 with messages := st1.messages ++ toolResults.map toolResultMessage }
      let st3 := runCallbacks cfg calls toolResults st2
      if st3.cancelled then .ok (.done cancelledValue usage st3)
      else
        match terminatingStop calls toolResults with
        | some args => .ok (.done args usage st3)
        | none =>
          let toolChoice := normalizeToolChoice (force.getD (.vStr "required"))
          match invokeScript toolChoice st3 with
          | .error e => .error (e, st3)
          | .ok (res, st4) =>
            let inT := (res.usage.map TurnUsage.input_tokens).getD 0
            let outT := (res.usage.map TurnUsage.output_tokens).getD 0
            let usage' : Usage :=
              { inputTokens := usage.inputTokens + inT,
                outputTokens := usage.outputTokens + outT,
                totalCostUSD := calculateCost cfg (usage.inputTokens + inT) (usage.outputTokens + outT) }
            let st5 := { st4 with messages := st4.messages ++ [res.message] }
            .ok (.cont res.message usage' st5)

/-- The code after the `while` loop of `runToolLoop`: a cancelled run
returns `\x7b ok:false, status:'cancelled' \x7d`; otherwise the agent ended
without a terminating call and the loop throws. -/
def afterLoop (usage : Usage) (st : LoopState) :
    Except (String × LoopState) (Value × Usage × LoopState) :=
  if st.cancelled then .ok (cancelledValue, usage, st)
  else .error (noTerminatingError, st)

/-- `BaseExecutor.runToolLoop`, fuel-indexed so that the definition is
structurally recursive.  `execute` supplies `maxMessages + 1` fuel, which is
always sufficient: every `cont` iteration strictly grows the message stack
and requires its length below `maxMessages` (see `runToolLoop_fuel_congr`),
so the fuel-exhausted branch is unreachable from `execute`. -/
def runToolLoop (cfg : Config) : Nat → Message → Usage → LoopState →
    Except (String × LoopState) (Value × Usage × LoopState)
  | 0, _, _, st => .error ("[model] loop fuel exhausted", st)
  | fuel + 1, msg, usage, st =>
    if hasToolCalls msg then
      match loopStep cfg msg usage st with
      | .error e => .error e
      | .ok (.done v u st') => .ok (v, u, st')
      | .ok (.cont m u st') => runToolLoop cfg fuel m u st'
    else afterLoop usage st

/-! ### execute -/

/-- `BaseExecutor.validateVariables`: the first manifest-declared required
variable without a bound value, if any (the source throws on it). -/
def firstMissingRequired (decls : List VariableDef) (vars : List (String × Value)) :
    Option VariableDef :=
  (decls.filter fun v => v.required).find? fun vd => (List.lookup vd.name vars).isNone

/-- `BaseExecutor.buildInitialMessages`: rendered system instructions and
rendered user content (the optional file attachments are not modelled). -/
def buildInitialMessages (cfg : Config) : List Message :=
  [{ role := "system",
     content := .vStr (renderChunks cfg.manifest.blocks cfg.manifest.system cfg.vars) },
   { role := "user",
     content := .vStr (renderChunks cfg.manifest.blocks cfg.manifest.user cfg.vars) }]

/-- The initial executor state of one execution. -/
def initState (cfg : Config) : LoopState :=
  { messages := cfg.messages, cancelled := cfg.cancelStart,
    toolErrorCount := [], callCount := [], script := cfg.script, choices := [] }

/-- The body of `execute` inside its `try`: validation, initial messages,
first adapter invocation, and then either the tool loop (router supplied or
built-in scenario tools called), the single-shot first tool call's arguments,
or the raw content. -/
def executeAux (cfg : Config) :
    Except (String × LoopState) (Value × Usage × LoopState) :=
  let st0 := initState cfg
  match firstMissingRequired cfg.manifest.vars cfg.vars with
  | some vd => .error ("[BaseExecutor] Required variable missing: " ++ vd.name, st0)
  | none =>
    let st1 :=
      if st0.messages.isEmpty then { st0 with messages := buildInitialMessages cfg }
      else st0
    match invokeScript (normalizeToolChoice (.vStr cfg.initialToolChoice)) st1 with
    | .error e => .error (e, st1)
    | .ok (res, st2) =>
      let inT := (res.usage.map TurnUsage.input_tokens).getD 0
      let outT := (res.usage.map TurnUsage.output_tokens).getD 0
      let usage : Usage :=
        { inputTokens := inT, outputTokens := outT,
          totalCostUSD := calculateCost cfg inT outT }
      let st3 := { st2 with messages := st2.messages ++ [res.message] }
      let hasToolRouter := !cfg.router.isEmpty
      let hasBuiltInScenarioTools :=
        (res.message.tool_calls.map fun calls =>
          calls.any fun tc => builtInScenarioTools.contains tc.name).getD false
      if hasToolRouter || hasBuiltInScenarioTools then
        runToolLoop cfg (cfg.maxMessages + 1) res.message usage st3
      else
        match res.message.tool_calls with
        | some (tc :: _) => .ok (tc.args, usage, st3)
        | _ => .ok (res.message.content, usage, st3)

/-- The result record `execute` always returns (never throws). -/
structure ExecutionResult where
  ok : Bool
  usage : Usage
  result : Value
  messages : List Message
  error : Option String
deriving Repr

/-- The zero usage reported on the error path of `execute`. -/
def zeroUsage : Usage := { inputTokens := 0, outputTokens := 0, totalCostUSD := 0 }

/-- `BaseExecutor.execute`: the public entry point.  Internal throws are
caught and converted into `ok:false` records carrying the error message and
zeroed usage.  The final `LoopState` is returned alongside as the observable
interaction trace (remaining script, tool choices per invocation). -/
def execute (cfg : Config) : ExecutionResult × LoopState :=
  match executeAux cfg with
  | .ok (output, usage, st) =>
    ({ ok := !st.cancelled, usage := usage, result := output,
       messages := st.messages, error := none }, st)
  | .error (e, st) =>
    ({ ok := false, usage := zeroUsage, result := .vNull,
       messages := st.messages, error := some e }, st)

/-! ### Helper lemmas -/

theorem takeWhile_all_append (p : α → Bool) (l1 l2 : List α)
    (h : ∀ a ∈ l1, p a = true) :
    (l1 ++ l2).takeWhile p = l1 ++ l2.takeWhile p := by
  induction l1 with
  | nil => simp
  | cons a l ih =>
    simp only [List.cons_append, List.takeWhile_cons,
      h a (List.mem_cons_self a l), if_true, List.cons.injEq, true_and]
    exact ih fun b hb => h b (List.mem_cons_of_mem a hb)

theorem dropWhile_all_append (p : α → Bool) (l1 l2 : List α)
    (h : ∀ a ∈ l1, p a = true) :
    (l1 ++ l2).dropWhile p = l2.dropWhile p := by
  induction l1 with
  | nil => simp
  | cons a l ih =>
    simp only [List.cons_append, List.dropWhile_cons,
      h a (List.mem_cons_self a l), if_true]
    exact ih fun b hb => h b (List.mem_cons_of_mem a hb)

theorem listContainsSub_append_right (sub l1 l2 : List Char)
    (h : listContainsSub sub l2 = true) :
    listContainsSub sub (l1 ++ l2) = true := by
  induction l1 with
  | nil => simpa using h
  | cons c rest ih => simp [listContainsSub, ih]

theorem countGet_countSet (counters : List (String × Nat)) (k : String) (n : Nat) :
    countGet (countSet counters k n) k = n := by
  induction counters with
  | nil => simp [countGet, countSet, List.lookup]
  | cons p rest ih =>
    obtain ⟨k', v⟩ := p
    by_cases hk : k' = k
    · simp [countSet, hk, countGet, List.lookup]
    · have hbeq : (k == k') = false := beq_eq_false_iff_ne.mpr fun h => hk h.symm
      simp only [countSet, if_neg hk, countGet, List.lookup, hbeq]
      exact ih

theorem populateAux_nil (vars : List (String × Value)) (fuel : Nat) :
    populateAux vars fuel [] = "" := by
  cases fuel <;> rfl

/-- `\x7b` followed by a name without `\x7d` followed by `\x7d` is matched
whole by the token scanner. -/
theorem tryMatchToken_exact (pre : List Char) (name : List Char)
    (hne : name ≠ []) (hnb : ∀ c ∈ name, c ≠ '\x7d') :
    tryMatchToken pre (pre ++ name ++ ['\x7d']) = some (String.mk name, []) := by
  unfold tryMatchToken
  rw [if_pos]
  · have hall : ∀ c ∈ name, (fun c => decide (c ≠ '\x7d')) c = true := by
      intro c hc
      simpa using hnb c hc
    have hdrop : (pre ++ name ++ ['\x7d']).drop pre.length = name ++ ['\x7d'] := by
      rw [List.append_assoc, List.drop_append_of_le_length (le_refl _), List.drop_length,
        List.nil_append]
    simp only [hdrop]
    rw [takeWhile_all_append _ name ['\x7d'] hall,
      dropWhile_all_append _ name ['\x7d'] hall]
    simp [List.takeWhile, List.dropWhile, List.isEmpty_iff, hne]
  · rw [List.append_assoc, List.take_append_of_le_length (le_refl _), List.take_length]

/-- Data of the concatenation `\x7b ++ key ++ \x7d`. -/
theorem braced_data (key : String) :
    ("\x7b" ++ key ++ "\x7d").data = '\x7b' :: (key.data ++ ['\x7d']) := by
  rw [String.data_append, String.data_append]
  simp

/-- A braced token is a non-empty string. -/
theorem braced_ne_empty (key : String) : ("\x7b" ++ key ++ "\x7d") ≠ "" := by
  intro h
  have hd := congrArg String.data h
  rw [braced_data] at hd
  simp at hd

/-- Evaluation of `populateTemplate` on a single braced token: the bound
value's string coercion when the name is bound, the literal token when it is
not. -/
theorem populateTemplate_single (key : String) (vars : List (String × Value))
    (hne : key.data ≠ []) (hnb : ∀ c ∈ key.data, c ≠ '\x7d') :
    populateTemplate ("\x7b" ++ key ++ "\x7d") vars =
      match List.lookup key vars with
      | some v => v.jsToString
      | none => "\x7b" ++ key ++ "\x7d" := by
  have hmatch : tryMatchToken ['\x7b'] ('\x7b' :: (key.data ++ ['\x7d']))
      = some (String.mk key.data, []) := by
    have := tryMatchToken_exact ['\x7b'] key.data hne hnb
    simpa using this
  have hmk : String.mk key.data = key := rfl
  rw [populateTemplate, if_neg (braced_ne_empty key)]
  have htl : ("\x7b" ++ key ++ "\x7d").toList = '\x7b' :: (key.data ++ ['\x7d']) :=
    braced_data key
  rw [htl]
  simp only [List.length_cons, populateAux, hmatch, hmk, populateAux_nil]
  cases h : List.lookup key vars <;> simp

/-- Executing one tool call only touches the per-tool counters: the message
stack, the remaining script, the invocation log, and the cancellation flag
are unchanged. -/
theorem handleOneToolCall_state (cfg : Config) (st : LoopState) (tc : ToolCall)
    (r : ToolResult) (st' : LoopState)
    (h : handleOneToolCall cfg st tc = .ok (r, st')) :
    st'.messages = st.messages ∧ st'.script = st.script
      ∧ st'.choices = st.choices ∧ st'.cancelled = st.cancelled := by
  unfold handleOneToolCall at h
  by_cases h1 : tc.name = "finish_agent_run"
  · rw [if_pos h1] at h
    cases hl : List.lookup tc.name cfg.router with
    | some hdl =>
      simp only [hl] at h
      cases hco : hdl.call (countGet st.callCount tc.name) with
      | ok v =>
        simp only [hco, Except.ok.injEq, Prod.mk.injEq] at h
        obtain ⟨-, rfl⟩ := h
        exact ⟨rfl, rfl, rfl, rfl⟩
      | throw m =>
        simp only [hco, Except.ok.injEq, Prod.mk.injEq] at h
        obtain ⟨-, rfl⟩ := h
        exact ⟨rfl, rfl, rfl, rfl⟩
    | none =>
      simp only [hl, Except.ok.injEq, Prod.mk.injEq] at h
      obtain ⟨-, rfl⟩ := h
      exact ⟨rfl, rfl, rfl, rfl⟩
  · rw [if_neg h1] at h
    by_cases h2 : tc.name = "fetch_available_scenarios"
    · rw [if_pos h2] at h
      simp only [Except.ok.injEq, Prod.mk.injEq] at h
      obtain ⟨-, rfl⟩ := h
      exact ⟨rfl, rfl, rfl, rfl⟩
    · rw [if_neg h2] at h
      by_cases h3 : tc.name = "fetch_scenario_specific_instructions"
      · rw [if_pos h3] at h
        simp only [Except.ok.injEq, Prod.mk.injEq] at h
        obtain ⟨-, rfl⟩ := h
        exact ⟨rfl, rfl, rfl, rfl⟩
      · rw [if_neg h3] at h
        cases hl : List.lookup tc.name cfg.router with
        | none =>
          simp only [hl, Except.ok.injEq, Prod.mk.injEq] at h
          obtain ⟨-, rfl⟩ := h
          exact ⟨rfl, rfl, rfl, rfl⟩
        | some hdl =>
          simp only [hl] at h
          cases hco : hdl.call (countGet st.callCount tc.name) with
          | ok v =>
            simp only [hco, Except.ok.injEq, Prod.mk.injEq] at h
            obtain ⟨-, rfl⟩ := h
            exact ⟨rfl, rfl, rfl, rfl⟩
          | throw m =>
            simp only [hco] at h
            split at h
            · cases h
            · simp only [Except.ok.injEq, Prod.mk.injEq] at h
              obtain ⟨-, rfl⟩ := h
              exact ⟨rfl, rfl, rfl, rfl⟩

/-- Executing a batch of tool calls only touches the per-tool counters. -/
theorem handleToolCalls_state (cfg : Config) :
    ∀ (calls : List ToolCall) (st : LoopState) (results : List ToolResult)
      (st1 : LoopState),
      handleToolCalls cfg st calls = .ok (results, st1) →
      st1.messages = st.messages ∧ st1.script = st.script
        ∧ st1.choices = st.choices ∧ st1.cancelled = st.cancelled := by
  intro calls
  induction calls with
  | nil =>
    intro st results st1 h
    simp only [handleToolCalls] at h
    obtain ⟨-, rfl⟩ : results = [] ∧ st = st1 := by
      refine ⟨?_, ?_⟩ <;> injection h with h1 <;> cases h1 <;> rfl
    simp
  | cons tc rest ih =>
    intro st results st1 h
    unfold handleToolCalls at h
    cases h1 : handleOneToolCall cfg st tc with
    | error e => rw [h1] at h; cases h
    | ok pr =>
      obtain ⟨r, st'⟩ := pr
      rw [h1] at h
      cases h2 : handleToolCalls cfg st' rest with
      | error e => simp only [h2] at h; cases h
      | ok pq =>
        obtain ⟨rs, st''⟩ := pq
        simp only [h2] at h
        obtain ⟨h3, h4⟩ := Prod.mk.injEq .. ▸ (Except.ok.injEq .. ▸ h)
        obtain ⟨p1, p2, p3, p4⟩ := handleOneToolCall_state cfg st tc r st' h1
        obtain ⟨q1, q2, q3, q4⟩ := ih st' rs st'' h2
        subst h4
        simp [q1, q2, q3, q4, p1, p2, p3, p4]

/-- The callback pass only touches the cancellation flag. -/
theorem runCallbacks_state (cfg : Config) (calls : List ToolCall)
    (results : List ToolResult) (st : LoopState) :
    (runCallbacks cfg calls results st).messages = st.messages
      ∧ (runCallbacks cfg calls results st).script = st.script
      ∧ (runCallbacks cfg calls results st).choices = st.choices := by
  unfold runCallbacks
  repeat' split
  all_goals simp

/-- A scripted adapter invocation does not touch the message stack. -/
theorem invokeScript_messages (tc : NormalizedToolChoice) (st : LoopState)
    (res : InvokeResult) (st' : LoopState)
    (h : invokeScript tc st = .ok (res, st')) : st'.messages = st.messages := by
  unfold invokeScript at h
  split at h
  · cases h
  · obtain ⟨h1, h2⟩ := Prod.mk.injEq .. ▸ (Except.ok.injEq .. ▸ h)
    subst h2
    rfl

/-- A `cont` outcome of one loop iteration strictly grows the message stack
and can only arise below the `maxMessages` guard: the loop makes strictly
decreasing progress towards the guard. -/
theorem loopStep_cont_facts (cfg : Config) (msg : Message) (usage : Usage)
    (st : LoopState) (m : Message) (u : Usage) (st' : LoopState)
    (h : loopStep cfg msg usage st = .ok (.cont m u st')) :
    st.messages.length < st'.messages.length
      ∧ st.messages.length < cfg.maxMessages := by
  unfold loopStep at h
  by_cases hc : st.cancelled = true
  · rw [if_pos hc] at h
    exact absurd h (by simp)
  · rw [if_neg hc] at h
    by_cases hlen : cfg.maxMessages ≤ st.messages.length
    · rw [if_pos hlen] at h
      cases h
    · rw [if_neg hlen] at h
      refine ⟨?_, Nat.lt_of_not_le hlen⟩
      cases hh : handleToolCalls cfg st (msg.tool_calls.getD []) with
      | error e =>
        simp only [hh] at h
        exact absurd h (by simp)
      | ok pr =>
        obtain ⟨results, st1⟩ := pr
        simp only [hh] at h
        obtain ⟨m1, -, -⟩ := runCallbacks_state cfg (msg.tool_calls.getD []) results
          { st1 with messages := st1.messages ++ results.map toolResultMessage }
        obtain ⟨s1, -, -, -⟩ := handleToolCalls_state cfg (msg.tool_calls.getD [])
          st results st1 hh
        split at h
        · exact absurd h (by simp)
        · split at h
          · exact absurd h (by simp)
          · cases hi : invokeScript
              (normalizeToolChoice ((firstForceDirective results).getD (.vStr "required")))
              (runCallbacks cfg (msg.tool_calls.getD []) results
                { st1 with messages := st1.messages ++ results.map toolResultMessage }) with
            | error e => rw [hi] at h; cases h
            | ok pq =>
              obtain ⟨res, st4⟩ := pq
              rw [hi] at h
              have h6 : st' = { st4 with messages := st4.messages ++ [res.message] } := by
                have := Except.ok.injEq .. ▸ h
                simp only [StepOut.cont.injEq] at this
                exact this.2.2.symm
              have hm4 := invokeScript_messages _ _ _ _ hi
              rw [m1] at hm4
              subst h6
              have hlen1 : st1.messages.length = st.messages.length := by rw [s1]
              simp only [LoopState.messages, hm4, List.length_append, List.length_cons,
                List.length_nil]
              omega

/-- The fuel of `runToolLoop` is irrelevant as soon as it exceeds
`maxMessages - messages.length`: in particular, the `maxMessages + 1` fuel
supplied by `execute` never runs out, so the fuel device does not alter the
loop's semantics. -/
theorem runToolLoop_fuel_congr (cfg : Config) :
    ∀ (g g' : Nat) (msg : Message) (usage : Usage) (st : LoopState),
      cfg.maxMessages - st.messages.length < g →
      cfg.maxMessages - st.messages.length < g' →
      runToolLoop cfg g msg usage st = runToolLoop cfg g' msg usage st := by
  intro g
  induction g with
  | zero => intro g' msg usage st hg; exact absurd hg (Nat.not_lt_zero _)
  | succ n ih =>
    intro g' msg usage st hg hg'
    cases g' with
    | zero => exact absurd hg' (Nat.not_lt_zero _)
    | succ m =>
      simp only [runToolLoop]
      by_cases htc : hasToolCalls msg = true
      · simp only [htc, if_true]
        cases hstep : loopStep cfg msg usage st with
        | error e => rfl
        | ok out =>
          cases out with
          | done v u st2 => rfl
          | cont m2 u2 st2 =>
            obtain ⟨hlt, hmax⟩ := loopStep_cont_facts cfg msg usage st m2 u2 st2 hstep
            exact ih m m2 u2 st2 (by omega) (by omega)
      · simp only [Bool.not_eq_true] at htc
        simp only [htc, Bool.false_eq_true, if_false]

/-- Reduction of one loop iteration when the batch's terminating-call check
says to stop: the loop ends with that value, the tool results pushed, and no
further adapter invocation (hypotheses: not cancelled, guard not hit, the
batch executed without a rethrow, no callback). -/
theorem loopStep_done_of_stop (cfg : Config) (msg : Message) (usage : Usage)
    (st st1 : LoopState) (results : List ToolResult) (args : Value)
    (hc : st.cancelled = false)
    (hlen : st.messages.length < cfg.maxMessages)
    (hh : handleToolCalls cfg st (msg.tool_calls.getD []) = .ok (results, st1))
    (hcb : cfg.onToolCall = none)
    (hc1 : st1.cancelled = false)
    (hstop : terminatingStop (msg.tool_calls.getD []) results = some args) :
    loopStep cfg msg usage st
      = .ok (.done args usage
          { st1 with messages := st1.messages ++ results.map toolResultMessage }) := by
  unfold loopStep
  rw [hc]
  simp only [Bool.false_eq_true, if_false]
  rw [if_neg (Nat.not_le.mpr hlen), hh]
  simp only [runCallbacks, hcb, hc1, Bool.false_eq_true, if_false, hstop]

/-- Reduction of one loop iteration when the batch's terminating-call check
says to continue: the adapter is invoked once more, with the tool choice
pinned by the batch's first truthy `forceNextTool` directive (or
`'required'`), and the turn's usage accumulated. -/
theorem loopStep_cont_of_nostop (cfg : Config) (msg : Message) (usage : Usage)
    (st st1 : LoopState) (results : List ToolResult)
    (ir : InvokeResult) (rest : List InvokeResult)
    (hc : st.cancelled = false)
    (hlen : st.messages.length < cfg.maxMessages)
    (hh : handleToolCalls cfg st (msg.tool_calls.getD []) = .ok (results, st1))
    (hcb : cfg.onToolCall = none)
    (hc1 : st1.cancelled = false)
    (hstop : terminatingStop (msg.tool_calls.getD []) results = none)
    (hscr : st1.script = ir :: rest) :
    loopStep cfg msg usage st
      = .ok (.cont ir.message
          { inputTokens := usage.inputTokens + (ir.usage.map TurnUsage.input_tokens).getD 0,
            outputTokens := usage.outputTokens + (ir.usage.map TurnUsage.output_tokens).getD 0,
            totalCostUSD := calculateCost cfg
              (usage.inputTokens + (ir.usage.map TurnUsage.input_tokens).getD 0)
              (usage.outputTokens + (ir.usage.map TurnUsage.output_tokens).getD 0) }
          { st1 with
              messages := st1.messages ++ results.map toolResultMessage ++ [ir.message],
              script := rest,
              choices := st1.choices
                ++ [normalizeToolChoice ((firstForceDirective results).getD (.vStr "required"))] }) := by
  unfold loopStep
  rw [hc]
  simp only [Bool.false_eq_true, if_false]
  rw [if_neg (Nat.not_le.mpr hlen), hh]
  simp only [runCallbacks, hcb, hc1, Bool.false_eq_true, if_false, hstop, invokeScript, hscr]

/-! ### Concrete fixtures used by the claims -/

/-- A minimal valid manifest. -/
def emptyManifest : Manifest :=
  { system := [], user := [], blocks := [], vars := [], scenarios := [] }

/-- A handler that always succeeds with a completed result. -/
def okHandler : Handler :=
  { outcomes := [], dflt := .ok (.vObj [("completed", .vBool true)]) }

/-- A scripted assistant message carrying the given tool calls. -/
def asstMsg (calls : List ToolCall) : Message :=
  { role := "assistant", content := .vNull, tool_calls := some calls }

/-- A call of a generic router tool named `search`. -/
def searchCall (i : String) : ToolCall := ToolCall.mk i "search" .vNull

/-! ### Claims -/

/-- C6: Block-reference resolution terminates on every input (the resolver is
a total function); an already-visited block name in the same resolution chain
is left as the literal unresolved `\x7bcomponent.X\x7d` placeholder rather
than expanded (shown in general at the segment level, and concretely for a
direct and a transitive self-reference); and the recursion-depth ceiling of
50 independently bounds nesting by returning content as-is beyond it. -/
theorem claim6_block_resolution_cycles_and_depth :
    (∀ (blocks : List (String × String)) (content : String)
       (visited : List String) (depth : Nat),
       50 < depth → resolveBlockReferences blocks content visited depth = content)
    ∧ (∀ (blocks : List (String × String)) (recur : String → List String → String)
         (name : String) (rest : List Seg) (visited : List String),
         visited.contains name = true →
         segRender blocks recur (.ref name :: rest) visited
           = componentLiteral name ++ segRender blocks recur rest visited)
    ∧ resolveBlockReferences [("a", "X\x7bcomponent.a\x7dY")] "\x7bcomponent.a\x7d" [] 0
        = "X\x7bcomponent.a\x7dY"
    ∧ resolveBlockReferences [("a", "[\x7bcomponent.b\x7d]"), ("b", "(\x7bcomponent.a\x7d)")]
        "\x7bcomponent.a\x7d" [] 0 = "[(\x7bcomponent.a\x7d)]" := by
  refine ⟨?_, ?_, rfl, rfl⟩
  · intro blocks content visited depth hd
    unfold resolveBlockReferences
    have h0 : 51 - depth = 0 := by omega
    rw [h0]
    rfl
  · intro blocks recur name rest visited hvis
    have hmem : name ∈ visited := by simpa using hvis
    simp [segRender, hmem]

/-- Witness for C6 at concrete inputs. -/
theorem claim6_witness :
    resolveBlockReferences [] "abc" [] 51 = "abc"
    ∧ segRender [] (fun c _ => c) [.ref "a"] ["a"]
        = componentLiteral "a" ++ segRender [] (fun c _ => c) [] ["a"] :=
  ⟨claim6_block_resolution_cycles_and_depth.1 [] "abc" [] 51 (by decide),
   claim6_block_resolution_cycles_and_depth.2.1 [] (fun c _ => c) "a" [] ["a"] (by decide)⟩

/-- C7: variable substitution replaces every braced token whose name is
bound with the bound value and leaves unbound tokens as literal text (shown
in general for a single token, plus the spec's concrete example). -/
theorem claim7_variable_substitution :
    (∀ (key : String) (v : Value) (vars : List (String × Value)),
       key.data ≠ [] → (∀ c ∈ key.data, c ≠ '\x7d') →
       List.lookup key vars = some v →
       populateTemplate ("\x7b" ++ key ++ "\x7d") vars = v.jsToString)
    ∧ (∀ (key : String) (vars : List (String × Value)),
       key.data ≠ [] → (∀ c ∈ key.data, c ≠ '\x7d') →
       List.lookup key vars = none →
       populateTemplate ("\x7b" ++ key ++ "\x7d") vars = "\x7b" ++ key ++ "\x7d")
    ∧ populateTemplate "Hi \x7bassistantName\x7d, \x7btask\x7d? \x7bmissing\x7d"
        [("assistantName", .vStr "Bot"), ("task", .vStr "help")]
        = "Hi Bot, help? \x7bmissing\x7d" := by
  refine ⟨?_, ?_, rfl⟩
  · intro key v vars hne hnb hl
    rw [populateTemplate_single key vars hne hnb, hl]
  · intro key vars hne hnb hl
    rw [populateTemplate_single key vars hne hnb, hl]

/-- Witness for C7 at concrete inputs. -/
theorem claim7_witness :
    populateTemplate "\x7bk\x7d" [("k", Value.vStr "v")] = "v"
    ∧ populateTemplate "\x7bm\x7d" [] = "\x7bm\x7d" :=
  ⟨claim7_variable_substitution.1 "k" (Value.vStr "v") [("k", Value.vStr "v")]
      (by decide) (by decide) rfl,
   claim7_variable_substitution.2.1 "m" [] (by decide) (by decide) rfl⟩

/-- A manifest declaring two required variables `a` and `b` (for C5). -/
def cfgC5 : Config :=
  { manifest := { emptyManifest with
      vars := [⟨"a", "string", true⟩, ⟨"b", "string", true⟩] } }

/-- C5 counterexample: with both required variables `a` and `b` missing from
the bindings, the error names only `a` (the first in declaration order); the
claim's universally quantified "contains missing: X" fails at `X = b`. -/
theorem claim5_counterexample :
    (⟨"b", "string", true⟩ : VariableDef) ∈ cfgC5.manifest.vars
    ∧ List.lookup "b" cfgC5.vars = none
    ∧ (execute cfgC5).1.error = some "[BaseExecutor] Required variable missing: a"
    ∧ strContainsSub "[BaseExecutor] Required variable missing: a"
        "Required variable missing: b" = false := by
  refine ⟨by decide, rfl, rfl, by decide⟩

/-- C5 (amended): when some manifest-declared required variable is unbound,
`execute()` returns a structured `ok:false` record (no exception escapes)
whose error contains "Required variable missing: X" for the first such
variable X in declaration order. -/
theorem claim5_required_variable_missing (cfg : Config) (vd : VariableDef)
    (hmiss : firstMissingRequired cfg.manifest.vars cfg.vars = some vd) :
    (execute cfg).1.ok = false
    ∧ (execute cfg).1.usage = zeroUsage
    ∧ (execute cfg).1.result = .vNull
    ∧ (execute cfg).1.error
        = some ("[BaseExecutor] Required variable missing: " ++ vd.name)
    ∧ (execute cfg).1.messages = cfg.messages := by
  have hax : executeAux cfg
      = .error ("[BaseExecutor] Required variable missing: " ++ vd.name, initState cfg) := by
    simp only [executeAux, hmiss]
  simp [execute, hax, initState]

/-- Witness for C5's amended theorem at the concrete configuration. -/
theorem claim5_witness :
    (execute cfgC5).1.ok = false
    ∧ (execute cfgC5).1.error = some "[BaseExecutor] Required variable missing: a" := by
  have h := claim5_required_variable_missing cfgC5 ⟨"a", "string", true⟩ rfl
  exact ⟨h.1, h.2.2.2.1⟩

/-- A run that consumes tokens on two turns and then fails on the
infinite-loop guard (for C9): `maxMessages = 4` is reached while the second
scripted assistant message still carries tool calls. -/
def cfgC9 : Config :=
  { manifest := emptyManifest, maxMessages := 4,
    router := [("search", okHandler)],
    script :=
      [{ message := asstMsg [searchCall "1"], usage := some ⟨100, 50⟩ },
       { message := asstMsg [searchCall "2"], usage := some ⟨200, 80⟩ }] }

/-- C9: whenever `execute()` returns through its error path, the usage field
is exactly zero, even when adapter turns had already consumed tokens (shown
in general, and concretely for a run whose two turns consumed 300 input and
130 output tokens before failing). -/
theorem claim9_error_path_zero_usage :
    (∀ (cfg : Config) (e : String),
       (execute cfg).1.error = some e → (execute cfg).1.usage = zeroUsage)
    ∧ (execute cfgC9).1.usage = zeroUsage
    ∧ (execute cfgC9).1.error = some (maxMessagesError 4)
    ∧ (cfgC9.script.map fun r => (r.usage.map TurnUsage.input_tokens).getD 0).sum = 300
    ∧ (cfgC9.script.map fun r => (r.usage.map TurnUsage.output_tokens).getD 0).sum = 130 := by
  refine ⟨?_, rfl, rfl, by decide, by decide⟩
  intro cfg e h
  cases hax : executeAux cfg with
  | ok triple =>
    rw [execute, hax] at h
    simp at h
  | error pair =>
    rw [execute, hax]

/-- Witness for C9's general conjunct at the concrete configuration. -/
theorem claim9_witness : (execute cfgC9).1.usage = zeroUsage :=
  claim9_error_path_zero_usage.1 cfgC9 (maxMessagesError 4) rfl

/-- A run that reaches the `maxMessages = 4` ceiling while the latest
assistant message still carries tool calls (for C3). -/
def cfgC3 : Config :=
  { manifest := emptyManifest, maxMessages := 4,
    router := [("search", okHandler)],
    script :=
      [{ message := asstMsg [searchCall "1"] },
       { message := asstMsg [searchCall "2"] }] }

/-- C3: when the message stack has reached the configured ceiling while the
latest assistant message still carries tool calls, the loop stops with a
fatal error whose message mentions a possible infinite loop, and `execute()`
converts it into an `ok:false` record (the loop itself is a total function,
so it cannot run forever). -/
theorem claim3_infinite_loop_guard :
    (∀ (cfg : Config) (fuel : Nat) (msg : Message) (usage : Usage) (st : LoopState),
       st.cancelled = false → cfg.maxMessages ≤ st.messages.length →
       hasToolCalls msg = true →
       runToolLoop cfg (fuel + 1) msg usage st
         = .error (maxMessagesError cfg.maxMessages, st))
    ∧ (∀ n : Nat, strContainsSub (maxMessagesError n) "Possible infinite loop" = true)
    ∧ (execute cfgC3).1.ok = false
    ∧ (execute cfgC3).1.error = some (maxMessagesError 4) := by
  refine ⟨?_, ?_, rfl, rfl⟩
  · intro cfg fuel msg usage st hc hlen htc
    have hstep : loopStep cfg msg usage st = .error (maxMessagesError cfg.maxMessages, st) := by
      unfold loopStep
      rw [hc]
      simp only [Bool.false_eq_true, if_false]
      rw [if_pos hlen]
    simp only [runToolLoop, htc, if_true, hstep]
  · intro n
    show listContainsSub _ (("[BaseExecutor] Message stack exceeded " ++ toString n
      ++ " messages. Possible infinite loop detected. Agent must call a terminating tool (finish_agent_run or output) to complete.").data) = true
    rw [String.data_append]
    apply listContainsSub_append_right
    decide

/-- Witness for C3 at concrete inputs. -/
theorem claim3_witness :
    runToolLoop { manifest := emptyManifest, maxMessages := 0 } 1
        (asstMsg [searchCall "1"]) zeroUsage
        (initState { manifest := emptyManifest, maxMessages := 0 })
      = .error (maxMessagesError 0,
          initState { manifest := emptyManifest, maxMessages := 0 })
    ∧ strContainsSub (maxMessagesError 50) "Possible infinite loop" = true :=
  ⟨claim3_infinite_loop_guard.1 { manifest := emptyManifest, maxMessages := 0 } 0
      (asstMsg [searchCall "1"]) zeroUsage
      (initState { manifest := emptyManifest, maxMessages := 0 }) rfl (by decide) rfl,
   claim3_infinite_loop_guard.2.1 50⟩

/-- A run whose per-tool-call callback signals abort on the first
non-terminating tool call (for C4). -/
def cfgC4 : Config :=
  { manifest := emptyManifest,
    router := [("search", okHandler)],
    onToolCall := some fun _ _ => true,
    script := [{ message := asstMsg [searchCall "1"] }] }

/-- C4 counterexample: a run cancelled through the callback's abort signal
returns `ok:false` without an exception, but its result field is
`\x7b ok:false, status:'cancelled' \x7d`, not the bare
`\x7b status:'cancelled' \x7d` the claim states. -/
theorem claim4_counterexample :
    (execute cfgC4).1.ok = false
    ∧ (execute cfgC4).1.result = cancelledValue
    ∧ cancelledValue ≠ Value.vObj [("status", Value.vStr "cancelled")]
    ∧ (execute cfgC4).1.error = none := by
  refine ⟨rfl, rfl, ?_, rfl⟩
  intro h
  simp [cancelledValue] at h

/-- C4 (amended): once the cancellation flag is set (by `cancel()` or by a
callback abort), the tool loop terminates at the next checkpoint with no
further adapter invocation (the state, including the remaining script and
the invocation log, is returned unchanged up to the flag), and `execute()`
returns `ok:false` with result `\x7b ok:false, status:'cancelled' \x7d` and
no error. -/
theorem claim4_cancellation :
    (∀ (cfg : Config) (fuel : Nat) (msg : Message) (usage : Usage) (st : LoopState),
       st.cancelled = true →
       runToolLoop cfg (fuel + 1) msg usage st = .ok (cancelledValue, usage, st))
    ∧ (∀ (cfg : Config) (msg : Message) (usage : Usage) (st st1 : LoopState)
         (results : List ToolResult) (cb : ToolCall → Value → Bool),
       st.cancelled = false →
       st.messages.length < cfg.maxMessages →
       handleToolCalls cfg st (msg.tool_calls.getD []) = .ok (results, st1) →
       cfg.onToolCall = some cb →
       callbackAbort cb ((msg.tool_calls.getD []).zip results) = true →
       loopStep cfg msg usage st
         = .ok (.done cancelledValue usage
             { st1 with messages := st1.messages ++ results.map toolResultMessage,
                        cancelled := true }))
    ∧ (execute cfgC4).1.ok = false
    ∧ (execute cfgC4).1.result = cancelledValue
    ∧ (execute cfgC4).1.error = none
    ∧ (execute cfgC4).2.choices.length = 1 := by
  refine ⟨?_, ?_, rfl, rfl, rfl, rfl⟩
  · intro cfg fuel msg usage st hc
    by_cases htc : hasToolCalls msg
    · have hstep : loopStep cfg msg usage st = .ok (.done cancelledValue usage st) := by
        unfold loopStep
        rw [hc]
        simp only [if_true]
      simp only [runToolLoop, htc, if_true, hstep]
    · simp only [runToolLoop, htc, if_false, Bool.false_eq_true, afterLoop, hc, if_true]
  · intro cfg msg usage st st1 results cb hc hlen hh hcb habort
    unfold loopStep
    rw [hc]
    simp only [Bool.false_eq_true, if_false]
    rw [if_neg (Nat.not_le.mpr hlen), hh]
    simp only [runCallbacks, hcb, habort, if_true]

/-- Witness for C4's amended theorem at concrete inputs. -/
theorem claim4_witness :
    runToolLoop { manifest := emptyManifest } 1 (asstMsg []) zeroUsage
        { messages := [], cancelled := true, toolErrorCount := [], callCount := [],
          script := [], choices := [] }
      = .ok (cancelledValue, zeroUsage,
          { messages := [], cancelled := true, toolErrorCount := [], callCount := [],
            script := [], choices := [] })
    ∧ ∃ out, loopStep cfgC4 (asstMsg [searchCall "1"]) zeroUsage (initState cfgC4)
        = .ok out :=
  ⟨claim4_cancellation.1 { manifest := emptyManifest } 0 (asstMsg []) zeroUsage
      { messages := [], cancelled := true, toolErrorCount := [], callCount := [],
        script := [], choices := [] } rfl,
   ⟨_, claim4_cancellation.2.1 cfgC4 (asstMsg [searchCall "1"]) zeroUsage
      (initState cfgC4) _ _ (fun _ _ => true) rfl (by decide) rfl rfl rfl⟩⟩

/-- A handler whose every call throws `boom` (for C2). -/
def throwHandler : Handler := { outcomes := [], dflt := .throw "boom" }

/-- A run whose router tool `search` throws on three consecutive turns
(for C2): the third consecutive throw must propagate out of `execute()`. -/
def cfgC2e : Config :=
  { manifest := emptyManifest,
    router := [("search", throwHandler)],
    script :=
      [{ message := asstMsg [searchCall "1"] },
       { message := asstMsg [searchCall "2"] },
       { message := asstMsg [searchCall "3"] }] }

/-- Router with the tool `t` always throwing / always succeeding
(witness fixtures for C2). -/
def cfgW2 : Config := { manifest := emptyManifest, router := [("t", throwHandler)] }

def cfgW2ok : Config := { manifest := emptyManifest, router := [("t", okHandler)] }

/-- C2: a router tool's throw increments its per-tool error counter; while
the incremented counter stays below 3 the loop receives the structured
recoverable result; at 3 the underlying error is re-raised (and, end to end,
three consecutive throws make `execute()` return `ok:false` carrying the
underlying message); a success resets the tool's counter to zero. -/
theorem claim2_router_error_retry
    (cfg : Config) (st : LoopState) (tc : ToolCall) (h : Handler)
    (hn1 : tc.name ≠ "finish_agent_run")
    (hn2 : tc.name ≠ "fetch_available_scenarios")
    (hn3 : tc.name ≠ "fetch_scenario_specific_instructions")
    (hrouter : List.lookup tc.name cfg.router = some h) :
    (∀ m, h.call (countGet st.callCount tc.name) = .throw m →
       countGet st.toolErrorCount tc.name + 1 < 3 →
       handleOneToolCall cfg st tc
         = .ok (mkToolResult tc recoverableToolError,
             { st with
                 callCount := countSet st.callCount tc.name
                   (countGet st.callCount tc.name + 1),
                 toolErrorCount := countSet st.toolErrorCount tc.name
                   (countGet st.toolErrorCount tc.name + 1) }))
    ∧ (∀ m, h.call (countGet st.callCount tc.name) = .throw m →
       3 ≤ countGet st.toolErrorCount tc.name + 1 →
       handleOneToolCall cfg st tc
         = .error (m,
             { st with
                 callCount := countSet st.callCount tc.name
                   (countGet st.callCount tc.name + 1),
                 toolErrorCount := countSet st.toolErrorCount tc.name
                   (countGet st.toolErrorCount tc.name + 1) }))
    ∧ (∀ v, h.call (countGet st.callCount tc.name) = .ok v →
       handleOneToolCall cfg st tc
         = .ok (mkToolResult tc v,
             { st with
                 callCount := countSet st.callCount tc.name
                   (countGet st.callCount tc.name + 1),
                 toolErrorCount := countSet st.toolErrorCount tc.name 0 })
       ∧ countGet (countSet st.toolErrorCount tc.name 0) tc.name = 0)
    ∧ (execute cfgC2e).1.ok = false
    ∧ (execute cfgC2e).1.error = some "boom" := by
  unfold handleOneToolCall
  rw [if_neg hn1, if_neg hn2, if_neg hn3, hrouter]
  refine ⟨?_, ?_, ?_, rfl, rfl⟩
  · intro m hm hlt
    simp only [hm]
    rw [if_neg (Nat.not_le.mpr hlt)]
  · intro m hm hge
    simp only [hm]
    rw [if_pos hge]
  · intro v hv
    simp only [hv]
    exact ⟨trivial, countGet_countSet st.toolErrorCount tc.name 0⟩

/-- Witness for C2 at concrete inputs: a first throw is recoverable, a throw
with two prior consecutive errors re-raises, a success resets the counter. -/
theorem claim2_witness :
    (∃ out, handleOneToolCall cfgW2 (initState cfgW2) (ToolCall.mk "1" "t" .vNull)
      = .ok out)
    ∧ (∃ est, handleOneToolCall cfgW2
        { messages := [], cancelled := false, toolErrorCount := [("t", 2)],
          callCount := [], script := [], choices := [] }
        (ToolCall.mk "1" "t" .vNull) = .error est)
    ∧ countGet (countSet (initState cfgW2ok).toolErrorCount "t" 0) "t" = 0 :=
  ⟨⟨_, (claim2_router_error_retry cfgW2 (initState cfgW2) (ToolCall.mk "1" "t" .vNull)
        throwHandler (by decide) (by decide) (by decide) rfl).1 "boom" rfl (by decide)⟩,
   ⟨_, (claim2_router_error_retry cfgW2
        { messages := [], cancelled := false, toolErrorCount := [("t", 2)],
          callCount := [], script := [], choices := [] }
        (ToolCall.mk "1" "t" .vNull) throwHandler
        (by decide) (by decide) (by decide) rfl).2.1 "boom" rfl (by decide)⟩,
   ((claim2_router_error_retry cfgW2ok (initState cfgW2ok) (ToolCall.mk "1" "t" .vNull)
        okHandler (by decide) (by decide) (by decide) rfl).2.2.1
      (.vObj [("completed", .vBool true)]) rfl).2⟩

/-- Arguments of the accepted terminating call of `cfgC1`. -/
def finishArgsC1 : Value := .vObj [("result", .vStr "done")]

/-- A batch whose first terminating call (`output`, unknown to the router,
hence rejected) precedes an accepted terminating call (`finish_agent_run`,
echoing its arguments); the follow-up turn carries no tool calls (for C1). -/
def cfgC1 : Config :=
  { manifest := emptyManifest,
    router := [("unused", okHandler)],
    script :=
      [{ message := asstMsg [ToolCall.mk "1" "output" (.vObj [("answer", .vStr "A")]),
                             ToolCall.mk "2" "finish_agent_run" finishArgsC1] },
       { message := { role := "assistant", content := .vStr "hm" } }] }

/-- C1 counterexample: the batch contains a terminating call
(`finish_agent_run`) whose result is not marked rejected, so the claim says
the loop ends there with `finishArgsC1` as the execution's result — but the
code only consults the first terminating call in the batch (the rejected
`output`), invokes the adapter a second time, and the execution fails with
"ended without calling terminating tool". -/
theorem claim1_counterexample :
    (cfgC1.script.head?.map fun r => r.message.tool_calls)
      = some (some [ToolCall.mk "1" "output" (.vObj [("answer", .vStr "A")]),
                    ToolCall.mk "2" "finish_agent_run" finishArgsC1])
    ∧ terminatingTools.contains "finish_agent_run" = true
    ∧ isRejected finishArgsC1 = false
    ∧ (execute cfgC1).1.result = Value.vNull
    ∧ (execute cfgC1).1.result ≠ finishArgsC1
    ∧ (execute cfgC1).1.error = some noTerminatingError
    ∧ (execute cfgC1).2.choices.length = 2 := by
  refine ⟨rfl, rfl, rfl, rfl, ?_, rfl, rfl⟩
  intro hcontra
  rw [show (execute cfgC1).1.result = Value.vNull from rfl] at hcontra
  simp [finishArgsC1] at hcontra

/-- C1 (amended): only the first terminating-tool call of the batch (in
tool-call order) is consulted.  When its result is not marked rejected, the
loop ends and that call's arguments are the result, with no further adapter
invocation; when its result has `completed:false` or a truthy `error`, the
loop does not end there and invokes the adapter for another turn — even if a
later terminating call of the same batch was accepted. -/
theorem claim1_first_terminating_decides
    (cfg : Config) (msg : Message) (usage : Usage)
    (st st1 : LoopState) (results : List ToolResult) (tcall : ToolCall) (r : ToolResult)
    (hc : st.cancelled = false)
    (hlen : st.messages.length < cfg.maxMessages)
    (hh : handleToolCalls cfg st (msg.tool_calls.getD []) = .ok (results, st1))
    (hcb : cfg.onToolCall = none)
    (hc1 : st1.cancelled = false)
    (hfind : (msg.tool_calls.getD []).find? (fun c => terminatingTools.contains c.name)
        = some tcall)
    (hres : results.find? (fun r2 => r2.tool_call_id == tcall.id) = some r) :
    (isRejected r.content = false →
       loopStep cfg msg usage st
         = .ok (.done tcall.args usage
             { st1 with messages := st1.messages ++ results.map toolResultMessage }))
    ∧ (isRejected r.content = true →
       ∀ (ir : InvokeResult) (rest : List InvokeResult), st1.script = ir :: rest →
       loopStep cfg msg usage st
         = .ok (.cont ir.message
             { inputTokens := usage.inputTokens + (ir.usage.map TurnUsage.input_tokens).getD 0,
               outputTokens := usage.outputTokens + (ir.usage.map TurnUsage.output_tokens).getD 0,
               totalCostUSD := calculateCost cfg
                 (usage.inputTokens + (ir.usage.map TurnUsage.input_tokens).getD 0)
                 (usage.outputTokens + (ir.usage.map TurnUsage.output_tokens).getD 0) }
             { st1 with
                 messages := st1.messages ++ results.map toolResultMessage ++ [ir.message],
                 script := rest,
                 choices := st1.choices
                   ++ [normalizeToolChoice
                        ((firstForceDirective results).getD (.vStr "required"))] })) := by
  constructor
  · intro hrej
    apply loopStep_done_of_stop cfg msg usage st st1 results tcall.args hc hlen hh hcb hc1
    unfold terminatingStop
    rw [hfind]
    simp [hres, hrej]
  · intro hrej ir rest hscr
    apply loopStep_cont_of_nostop cfg msg usage st st1 results ir rest hc hlen hh hcb hc1 _ hscr
    unfold terminatingStop
    rw [hfind]
    simp [hres, hrej]

/-- Witness for C1's amended theorem: an accepted first terminating call
ends the loop; a rejected one leads to another adapter invocation. -/
theorem claim1_witness :
    (∃ out, loopStep { manifest := emptyManifest }
        (asstMsg [ToolCall.mk "1" "finish_agent_run" finishArgsC1]) zeroUsage
        (initState { manifest := emptyManifest }) = .ok out)
    ∧ (∃ out, loopStep
        { manifest := emptyManifest, script := [{ message := asstMsg [] }] }
        (asstMsg [ToolCall.mk "1" "output" .vNull]) zeroUsage
        (initState { manifest := emptyManifest, script := [{ message := asstMsg [] }] })
        = .ok out) :=
  ⟨⟨_, (claim1_first_terminating_decides { manifest := emptyManifest }
        (asstMsg [ToolCall.mk "1" "finish_agent_run" finishArgsC1]) zeroUsage
        (initState { manifest := emptyManifest }) _ _
        (ToolCall.mk "1" "finish_agent_run" finishArgsC1) _
        rfl (by decide) rfl rfl rfl rfl rfl).1 rfl⟩,
   ⟨_, (claim1_first_terminating_decides
        { manifest := emptyManifest, script := [{ message := asstMsg [] }] }
        (asstMsg [ToolCall.mk "1" "output" .vNull]) zeroUsage
        (initState { manifest := emptyManifest, script := [{ message := asstMsg [] }] }) _ _
        (ToolCall.mk "1" "output" .vNull) _
        rfl (by decide) rfl rfl rfl rfl rfl).2 rfl { message := asstMsg [] } [] rfl⟩⟩

/-- A run whose only terminating call of the first batch is an `output` call
unknown to the router: its not-found result counts as a rejection, the loop
continues, and a later `finish_agent_run` echo ends it (for C8). -/
def cfg8a : Config :=
  { manifest := emptyManifest,
    router := [("nothing", okHandler)],
    script :=
      [{ message := asstMsg [ToolCall.mk "1" "output" (.vObj [("answer", .vStr "A")])] },
       { message := asstMsg [ToolCall.mk "2" "finish_agent_run" (.vObj [("result", .vStr "F")])] }] }

/-- A run whose `output` call is served by a router handler returning a
non-rejected result: the loop ends with the call's arguments (for C8). -/
def cfg8b : Config :=
  { manifest := emptyManifest,
    router := [("output",
      { outcomes := [.ok (.vObj [("completed", .vBool true), ("data", .vStr "D")])],
        dflt := .ok .vNull })],
    script := [{ message := asstMsg [ToolCall.mk "9" "output" (.vObj [("payload", .vStr "P")])] }] }

/-- C8: the terminating tool names are exactly `finish_agent_run` and
`output`; only `finish_agent_run` has a built-in handler echoing the call's
arguments; an `output` call with no router handler produces the structured
`Tool 'output' not found` rejection, so the loop continues to another turn
(run `cfg8a`: two adapter invocations, final result from the later
`finish_agent_run`); an `output` call whose router handler returns a
non-rejected result ends the loop with the call's arguments (run `cfg8b`). -/
theorem claim8_terminating_tool_handlers :
    terminatingTools = ["finish_agent_run", "output"]
    ∧ (∀ (cfg : Config) (st : LoopState) (tc : ToolCall),
        tc.name = "finish_agent_run" →
        List.lookup "finish_agent_run" cfg.router = none →
        handleOneToolCall cfg st tc = .ok (mkToolResult tc tc.args, st))
    ∧ (∀ (cfg : Config) (st : LoopState) (tc : ToolCall),
        tc.name = "output" →
        List.lookup "output" cfg.router = none →
        handleOneToolCall cfg st tc = .ok (mkToolResult tc (toolNotFound "output"), st))
    ∧ isRejected (toolNotFound "output") = true
    ∧ ((execute cfg8a).1.ok = true
       ∧ (execute cfg8a).1.result = Value.vObj [("result", Value.vStr "F")]
       ∧ (execute cfg8a).2.choices.length = 2)
    ∧ ((execute cfg8b).1.ok = true
       ∧ (execute cfg8b).1.result = Value.vObj [("payload", Value.vStr "P")]
       ∧ (execute cfg8b).2.choices.length = 1) := by
  refine ⟨rfl, ?_, ?_, rfl, ⟨rfl, rfl, rfl⟩, ⟨rfl, rfl, rfl⟩⟩
  · intro cfg st tc hname hr
    unfold handleOneToolCall
    rw [if_pos hname, hname, hr]
  · intro cfg st tc hname hr
    unfold handleOneToolCall
    rw [hname]
    simp only [if_neg (by decide : ¬("output" : String) = "finish_agent_run"),
      if_neg (by decide : ¬("output" : String) = "fetch_available_scenarios"),
      if_neg (by decide : ¬("output" : String) = "fetch_scenario_specific_instructions"), hr]

/-- Witness for C8's handler conjuncts at concrete inputs. -/
theorem claim8_witness :
    handleOneToolCall { manifest := emptyManifest }
        (initState { manifest := emptyManifest })
        (ToolCall.mk "1" "finish_agent_run" finishArgsC1)
      = .ok (mkToolResult (ToolCall.mk "1" "finish_agent_run" finishArgsC1) finishArgsC1,
          initState { manifest := emptyManifest })
    ∧ handleOneToolCall { manifest := emptyManifest }
        (initState { manifest := emptyManifest })
        (ToolCall.mk "1" "output" .vNull)
      = .ok (mkToolResult (ToolCall.mk "1" "output" .vNull) (toolNotFound "output"),
          initState { manifest := emptyManifest }) :=
  ⟨claim8_terminating_tool_handlers.2.1 { manifest := emptyManifest }
      (initState { manifest := emptyManifest })
      (ToolCall.mk "1" "finish_agent_run" finishArgsC1) rfl rfl,
   claim8_terminating_tool_handlers.2.2.1 { manifest := emptyManifest }
      (initState { manifest := emptyManifest })
      (ToolCall.mk "1" "output" .vNull) rfl rfl⟩

/-- A run whose first batch's tool result carries a `forceNextTool`
directive and whose second batch's does not (for C10): the second adapter
invocation is pinned to `toolA`, the third falls back to `required`. -/
def cfgC10 : Config :=
  { manifest := emptyManifest,
    router := [("search",
      { outcomes := [.ok (.vObj [("completed", .vBool true), ("forceNextTool", .vStr "toolA")]),
                     .ok (.vObj [("completed", .vBool true)])],
        dflt := .ok .vNull })],
    script :=
      [{ message := asstMsg [searchCall "1"] },
       { message := asstMsg [searchCall "2"] },
       { message := asstMsg [ToolCall.mk "3" "finish_agent_run" (.vObj [("result", .vStr "ok")])] }] }

/-- C10: the next turn's tool choice is pinned by the earliest truthy
`forceNextTool` directive of the current batch only — later directives of
the same batch are ignored, and batches without a truthy directive fall back
to `required` (the directive is recomputed from scratch each batch, so it
never carries over; run `cfgC10`: choices `required`, pinned `toolA`,
`required` again). -/
theorem claim10_force_next_tool :
    (∀ (cfg : Config) (msg : Message) (usage : Usage)
       (st st1 : LoopState) (results : List ToolResult)
       (ir : InvokeResult) (rest : List InvokeResult),
       st.cancelled = false →
       st.messages.length < cfg.maxMessages →
       handleToolCalls cfg st (msg.tool_calls.getD []) = .ok (results, st1) →
       cfg.onToolCall = none →
       st1.cancelled = false →
       terminatingStop (msg.tool_calls.getD []) results = none →
       st1.script = ir :: rest →
       ∃ usage', loopStep cfg msg usage st
         = .ok (.cont ir.message usage'
             { st1 with
                 messages := st1.messages ++ results.map toolResultMessage ++ [ir.message],
                 script := rest,
                 choices := st1.choices
                   ++ [normalizeToolChoice
                        ((firstForceDirective results).getD (.vStr "required"))] }))
    ∧ (∀ (r : ToolResult) (rs : List ToolResult) (v : Value),
        r.forceNextTool = some v → v.truthy = true →
        firstForceDirective (r :: rs) = some v)
    ∧ (∀ (r : ToolResult) (rs : List ToolResult),
        (r.forceNextTool.map Value.truthy).getD false = false →
        firstForceDirective (r :: rs) = firstForceDirective rs)
    ∧ (execute cfgC10).2.choices
        = [.plain "required", .function (.vStr "toolA"), .plain "required"]
    ∧ (execute cfgC10).1.ok = true
    ∧ (execute cfgC10).1.result = Value.vObj [("result", Value.vStr "ok")] := by
  refine ⟨?_, ?_, ?_, rfl, rfl, rfl⟩
  · intro cfg msg usage st st1 results ir rest hc hlen hh hcb hc1 hstop hscr
    exact ⟨_, loopStep_cont_of_nostop cfg msg usage st st1 results ir rest
      hc hlen hh hcb hc1 hstop hscr⟩
  · intro r rs v hv ht
    simp [firstForceDirective, hv, ht]
  · intro r rs hnt
    cases hv : r.forceNextTool with
    | none => simp [firstForceDirective, hv]
    | some v =>
      rw [hv] at hnt
      simp at hnt
      simp [firstForceDirective, hv, hnt]

/-- Fixture for C10's witness: an unknown tool call and one remaining
scripted response. -/
def cfgW10 : Config :=
  { manifest := emptyManifest, router := [("x", okHandler)],
    script := [{ message := asstMsg [] }] }

/-- Witness for C10 at concrete inputs: a pinned batch and the
earliest-truthy-directive scan. -/
theorem claim10_witness :
    (∃ out, loopStep cfgW10 (asstMsg [searchCall "1"]) zeroUsage (initState cfgW10)
      = .ok out)
    ∧ firstForceDirective
        [ToolResult.mk "1" .vNull (some (.vStr "toolA")),
         ToolResult.mk "2" .vNull (some (.vStr "toolB"))]
        = some (.vStr "toolA")
    ∧ firstForceDirective
        [ToolResult.mk "1" .vNull none,
         ToolResult.mk "2" .vNull (some (.vStr "toolB"))]
        = firstForceDirective [ToolResult.mk "2" .vNull (some (.vStr "toolB"))] :=
  ⟨by
    obtain ⟨u, hu⟩ := claim10_force_next_tool.1 cfgW10
      (asstMsg [searchCall "1"]) zeroUsage (initState cfgW10)
      _ _ { message := asstMsg [] } []
      rfl (by decide) rfl rfl rfl rfl rfl
    exact ⟨_, hu⟩,
   claim10_force_next_tool.2.1
      (ToolResult.mk "1" .vNull (some (.vStr "toolA")))
      [ToolResult.mk "2" .vNull (some (.vStr "toolB"))]
      (.vStr "toolA") rfl rfl,
   claim10_force_next_tool.2.2.1
      (ToolResult.mk "1" .vNull none)
      [ToolResult.mk "2" .vNull (some (.vStr "toolB"))]
      rfl⟩

end Studio
